import Mathlib

deriving instance DecidableEq for Except

/-!
Verification development for the patient-records management service
(`lib/api/services/patient.service.ts`, `lib/api/repositories/*`,
`lib/api/builders/query-builder`, the `/api/patients` HTTP handlers and the
zod validation schemas).

The TypeScript source is embedded shallowly:

* database rows are Lean structures whose fields follow the SQL columns,
  with `Option String` for nullable columns;
* the database is a pure value (a list of patient rows plus a list of audit
  rows) and every repository/service operation is a pure function returning
  its result, the successor database and the trace of write statements it
  executed;
* SQL fragments built by the query builder are modelled by their execution
  semantics: `LIKE` is a verified pattern matcher (`likeMatch`), `ORDER BY`
  is sorting by the comparator selected from the order-by clause exactly the
  way `buildDataQuery` dispatches on the clause text, `LIMIT`/`OFFSET` are
  `take`/`drop`;
* JavaScript truthiness (`x || null`, `String(x || '')`, `if (data.address)`)
  is made explicit through small helper functions.
-/

namespace PatientApp

/-! ## JavaScript value helpers

`Option String` stands for a JS value that may be `undefined`/`null`
(`none`) or a string (`some s`). -/

/-- JS truthiness of a nullable string: `null`, `undefined` and `''` are
falsy, every other string is truthy.  `jsTruthy` returns the value itself
when truthy, mirroring idioms like `filters.searchQuery ? … : null`. -/
def jsTruthy : Option String → Option String
  | none => none
  | some s => if s = "" then none else some s

/-- The JS expression `x || null` for a possibly-absent string `x`:
`undefined`, `null` and `''` collapse to `null`. -/
def jsOrNull : Option String → Option String
  | none => none
  | some s => if s = "" then none else some s

/-- The JS expression `String(x || '')` applied to a nullable string:
`null`/`undefined` become `''`, strings are kept. -/
def jsStrOrEmpty : Option String → String
  | none => ""
  | some s => s

/-- SQL `COALESCE(col, '')` on a nullable column. -/
def coalesce (o : Option String) : String := o.getD ""

/-- ASCII lower-casing of one character, the behaviour of SQL `LOWER` /
JS `toLowerCase` on the ASCII range (`A`-`Z` map to `a`-`z`, everything
else is fixed). -/
def lowChar (c : Char) : Char :=
  if 65 ≤ c.toNat ∧ c.toNat ≤ 90 then Char.ofNat (c.toNat + 32) else c

/-- Lower-casing of a whole string. -/
def lowStr (s : String) : String := ⟨s.toList.map lowChar⟩

/-! ## SQL `LIKE` pattern matching

`likeMatch pat t` decides whether the text `t` matches the SQL `LIKE`
pattern `pat`: `%` matches any (possibly empty) sequence of characters,
`_` matches exactly one character, every other pattern character matches
itself. -/

/-- All suffixes of a character list, longest first (`t.drop 0`, `t.drop 1`,
…, `[]`). -/
def listSuffixes : List Char → List (List Char)
  | [] => [[]]
  | c :: t => (c :: t) :: listSuffixes t

/-- SQL `LIKE` matching, by recursion on the pattern: a `%` consumes an
arbitrary suffix of the text, a `_` consumes exactly one character, any
other pattern character must equal the next text character. -/
def likeMatch : List Char → List Char → Bool
  | [], t => t.isEmpty
  | c :: p, t =>
    if c = '%' then (listSuffixes t).any fun t' => likeMatch p t'
    else
      match t with
      | [] => false
      | d :: t' => (decide (c = '_') || c == d) && likeMatch p t'

/-- The pattern `'%' + q + '%'` that every search query is wrapped in
(`const searchPattern = … ? `%${q}%` : null`). -/
def sqlContainsPat (q : String) : List Char := '%' :: (q.toList ++ ['%'])

/-- `LOWER(col) LIKE LOWER('%q%')`: case-insensitive `LIKE`-containment. -/
def likeCI (q field : String) : Bool :=
  likeMatch (sqlContainsPat (lowStr q)) (lowStr field).toList

/-- `col LIKE '%q%'`: case-sensitive `LIKE`-containment (used for `phone`). -/
def likeCS (q field : String) : Bool :=
  likeMatch (sqlContainsPat q) field.toList

/-! ## Generic string containment (used both by the JS `String.includes`
dispatch in `buildDataQuery` and by the specification-level notion of
"substring"). -/

/-- Whether `p` is an initial segment of `t` (plain characters, no
wildcards). -/
def leadSeg : List Char → List Char → Bool
  | [], _ => true
  | _ :: _, [] => false
  | c :: p, d :: t => c == d && leadSeg p t

/-- Whether `needle` occurs contiguously inside `hay`; this is the JS
`hay.includes(needle)` used by `buildDataQuery` to dispatch on the order-by
clause, and also the plain (wildcard-free) notion of substring. -/
def jsIncludes (hay needle : String) : Bool :=
  (listSuffixes hay.toList).any fun t => leadSeg needle.toList t

/-! ## Data model

`PatientRow` is a row of the `patients` table (schema in the db
initialization module): nullable columns are `Option String`, all values
kept as SQL text. -/

structure PatientRow where
  id : String
  first_name : String
  middle_name : Option String
  last_name : String
  date_of_birth : String
  status : String
  email : Option String
  phone : Option String
  address_street : String
  address_city : String
  address_state : String
  address_zip_code : String
  address_country : String
  address_latitude : Option String
  address_longitude : Option String
  created_at : String
  updated_at : String
  deriving Repr, DecidableEq

/-- A row of the `audit_logs` table, as produced by
`AuditLogRepository.create` (the generated `id` and the `performed_at`
default are not modelled). -/
structure AuditEntry where
  patient_id : String
  action : String
  field_name : Option String
  old_value : Option String
  new_value : Option String
  performed_by : String
  notes : Option String
  deriving Repr, DecidableEq

/-- The whole store: the `patients` table and the `audit_logs` table. -/
structure Db where
  patients : List PatientRow
  audits : List AuditEntry
  deriving Repr, DecidableEq

/-- One write statement executed against the store, for reasoning about
which statements ran and in which order. -/
inductive DbStmt where
  | updateTable (id : String)
  | insertAudit (e : AuditEntry)
  | deleteRow (id : String)
  deriving Repr, DecidableEq

/-- The partial address payload of `Partial<PatientFormData>['address']`:
absent sub-fields are `none`. -/
structure AddressPatch where
  street : Option String := none
  city : Option String := none
  state : Option String := none
  zipCode : Option String := none
  country : Option String := none
  deriving Repr, DecidableEq

/-- A `Partial<PatientFormData>` update payload: absent fields are `none`. -/
structure PatientPatch where
  firstName : Option String := none
  middleName : Option String := none
  lastName : Option String := none
  dateOfBirth : Option String := none
  status : Option String := none
  email : Option String := none
  phone : Option String := none
  address : Option AddressPatch := none
  deriving Repr, DecidableEq

/-! ## Query builder (`PatientQueryBuilder`)

`PatientQueryFilters` / `PatientQueryOptions` follow the interfaces of the
query-builder module.  Note that the filters interface declares `dateFrom` /
`dateTo` even though, as proved below, neither `buildCountQuery` nor
`buildDataQuery` ever uses them. -/

structure PatientQueryFilters where
  searchQuery : Option String := none
  status : Option String := none
  dateFrom : Option String := none
  dateTo : Option String := none
  deriving Repr, DecidableEq

structure PatientQueryOptions where
  sortField : String := "name"
  sortDirection : String := "asc"
  page : Nat := 1
  pageSize : Nat := 10
  deriving Repr, DecidableEq

/-- `PatientQueryBuilder.getOrderByClause`: the ORDER BY SQL fragment,
selected by a switch over `sortField` (with `createdAt` as the default) and
by `sortDirection.toLowerCase() === 'asc'`. -/
def getOrderByClause (sortField sortDirection : String) : String :=
  let isAsc := lowStr sortDirection == "asc"
  if sortField == "name" then
    if isAsc then "ORDER BY last_name ASC, first_name ASC"
    else "ORDER BY last_name DESC, first_name DESC"
  else if sortField == "status" then
    if isAsc then "ORDER BY status ASC" else "ORDER BY status DESC"
  else if sortField == "dateOfBirth" then
    if isAsc then "ORDER BY date_of_birth ASC" else "ORDER BY date_of_birth DESC"
  else
    if isAsc then "ORDER BY created_at ASC" else "ORDER BY created_at DESC"

/-- The search disjunction shared by `buildCountQuery` and `buildDataQuery`:

```
LOWER(first_name) LIKE LOWER(p) OR LOWER(last_name) LIKE LOWER(p) OR
LOWER(COALESCE(middle_name, '')) LIKE LOWER(p) OR
LOWER(COALESCE(email, '')) LIKE LOWER(p) OR COALESCE(phone, '') LIKE p
```

with `p = '%' + q + '%'`. -/
def searchWhere (q : String) (r : PatientRow) : Bool :=
  likeCI q r.first_name ||
  likeCI q r.last_name ||
  likeCI q (coalesce r.middle_name) ||
  likeCI q (coalesce r.email) ||
  likeCS q (coalesce r.phone)

/-- The WHERE predicate of the four `buildCountQuery` branches (the
`buildDataQuery` branches duplicate exactly the same text).  `searchPattern`
is present only when `filters.searchQuery` is truthy, `statusFilter` only
when `filters.status` is truthy; `dateFrom`/`dateTo` never appear in the
SQL. -/
def countQueryWhere (f : PatientQueryFilters) (r : PatientRow) : Bool :=
  match jsTruthy f.searchQuery, jsTruthy f.status with
  | some q, some st => searchWhere q r && (r.status == st)
  | some q, none => searchWhere q r
  | none, some st => r.status == st
  | none, none => true

/-! ### Text collation and ORDER BY semantics -/

/-- Lexicographic comparison of two character lists: the model of the text
collation the database uses when ordering string columns. -/
def charsLe : List Char → List Char → Bool
  | [], _ => true
  | _ :: _, [] => false
  | a :: s, b :: t => if a = b then charsLe s t else decide (a < b)

/-- Collation order on SQL text values. -/
def strLe (a b : String) : Bool := charsLe a.toList b.toList

/-- `ORDER BY last_name ASC, first_name ASC` as a comparator: compound
lexicographic key (last name, then first name). -/
def nameLe (a b : PatientRow) : Bool :=
  if a.last_name = b.last_name then strLe a.first_name b.first_name
  else strLe a.last_name b.last_name

/-- A single-column comparator in the requested direction. -/
def keyLe (key : PatientRow → String) (asc : Bool) (a b : PatientRow) : Bool :=
  if asc then strLe (key a) (key b) else strLe (key b) (key a)

/-- The comparator `buildDataQuery` effectively orders by: the code
dispatches on the text of `getOrderByClause` with
`orderBy.includes('last_name')`, `…('status')`, `…('date_of_birth')` and
`orderBy.includes('ASC')`, defaulting to `created_at`. -/
def dataQueryLe (o : PatientQueryOptions) : PatientRow → PatientRow → Bool :=
  let ob := getOrderByClause o.sortField o.sortDirection
  let asc := jsIncludes ob "ASC"
  if jsIncludes ob "last_name" then
    fun a b => if asc then nameLe a b else nameLe b a
  else if jsIncludes ob "status" then keyLe (fun r => r.status) asc
  else if jsIncludes ob "date_of_birth" then keyLe (fun r => r.date_of_birth) asc
  else keyLe (fun r => r.created_at) asc

/-- Insert into a sorted list, keeping earlier elements first on ties
(the executable model of ORDER BY). -/
def insertLe (le : α → α → Bool) (a : α) : List α → List α
  | [] => [a]
  | b :: l => if le a b then a :: b :: l else b :: insertLe le a l

/-- Sorting by a comparator, the semantics of an ORDER BY clause. -/
def sortByLe (le : α → α → Bool) : List α → List α
  | [] => []
  | a :: l => insertLe le a (sortByLe le l)

/-! ### Query execution -/

/-- Executing the SQL returned by `buildCountQuery` over the current
`patients` table: `SELECT COUNT(*) … WHERE <countQueryWhere>`. -/
def runCountQuery (ps : List PatientRow) (f : PatientQueryFilters) : Nat :=
  (ps.filter (countQueryWhere f)).length

/-- Executing the SQL returned by `buildDataQuery`: the same WHERE clause,
then ORDER BY, then `LIMIT pageSize OFFSET (page - 1) * pageSize`. -/
def runDataQuery (ps : List PatientRow) (f : PatientQueryFilters)
    (o : PatientQueryOptions) : List PatientRow :=
  let matched := ps.filter (countQueryWhere f)
  let sorted := sortByLe (dataQueryLe o) matched
  (sorted.drop ((o.page - 1) * o.pageSize)).take o.pageSize

/-- `PatientRepository.findMany`: runs the count query and the data query
(logically in parallel, over the same snapshot) and pairs the page of
patients with the total count. -/
def findMany (ps : List PatientRow) (f : PatientQueryFilters)
    (o : PatientQueryOptions) : List PatientRow × Nat :=
  (runDataQuery ps f o, runCountQuery ps f)

/-! ## The standalone listing handler `src/api/patients/route.ts`

This redundant implementation of GET `/api/patients` assembles its SQL as a
plain string.  Its ORDER BY clause concatenates the raw `sortDirection`
query parameter into the SQL text (switching only on `sortField`, with the
`name` compound key as default). -/

/-- The `orderBy` string built by the handler in
`src/api/patients/route.ts` (lines 51-68). -/
def routeOrderBy (sortField sortDirection : String) : String :=
  "ORDER BY " ++
    (if sortField == "name" then
      "last_name " ++ sortDirection ++ ", first_name " ++ sortDirection
    else if sortField == "status" then "status " ++ sortDirection
    else if sortField == "dateOfBirth" then "date_of_birth " ++ sortDirection
    else if sortField == "createdAt" then "created_at " ++ sortDirection
    else "last_name " ++ sortDirection ++ ", first_name " ++ sortDirection)

/-- The eight ORDER BY fragments the query builder can produce: the fixed
allow-list `{name, status, dateOfBirth, createdAt} × {asc, desc}`. -/
def orderByAllowList : List String :=
  ["ORDER BY last_name ASC, first_name ASC",
   "ORDER BY last_name DESC, first_name DESC",
   "ORDER BY status ASC", "ORDER BY status DESC",
   "ORDER BY date_of_birth ASC", "ORDER BY date_of_birth DESC",
   "ORDER BY created_at ASC", "ORDER BY created_at DESC"]

/-! ## Error taxonomy -/

/-- Repository-level failures (`throw new Error('Patient not found')`, or a
NOT NULL constraint rejected by the database). -/
inductive RepoErr where
  | notFound
  | notNullViolation
  deriving Repr, DecidableEq

/-- The service/handler error taxonomy. -/
inductive SvcErr where
  | notFound
  | database
  | validation
  deriving Repr, DecidableEq

/-- Modelled from the spec: the HTTP status each error class maps to
(`ValidationError` 400, `NotFoundError` 404, `DatabaseError` 500).  The
`errors.ts` module defining the `AppError` classes is referenced by the
sources but is not itself among them. -/
def SvcErr.statusCode : SvcErr → Nat
  | .notFound => 404
  | .database => 500
  | .validation => 400

/-! ## Repositories -/

/-- `SELECT * FROM patients WHERE id = …` (used by `findById` and
`getCurrentForComparison`). -/
def lookupPatient (ps : List PatientRow) (id : String) : Option PatientRow :=
  ps.find? fun r => r.id == id

/-- `UPDATE patients SET … WHERE id = …`: replace the matching row. -/
def replaceRow (ps : List PatientRow) (id : String) (row : PatientRow) :
    List PatientRow :=
  ps.map fun r => if r.id == id then row else r

/-- The column list `PatientRepository.update` accumulates in `updates`:
one entry per recognised field present in the payload (the address
sub-fields only when `data.address` is truthy). -/
def updateCols (d : PatientPatch) : List String :=
  (if d.firstName.isSome then ["first_name"] else []) ++
  (if d.middleName.isSome then ["middle_name"] else []) ++
  (if d.lastName.isSome then ["last_name"] else []) ++
  (if d.dateOfBirth.isSome then ["date_of_birth"] else []) ++
  (if d.status.isSome then ["status"] else []) ++
  (if d.email.isSome then ["email"] else []) ++
  (if d.phone.isSome then ["phone"] else []) ++
  (match d.address with
   | none => []
   | some a =>
     (if a.street.isSome then ["address_street"] else []) ++
     (if a.city.isSome then ["address_city"] else []) ++
     (if a.state.isSome then ["address_state"] else []) ++
     (if a.zipCode.isSome then ["address_zip_code"] else []) ++
     (if a.country.isSome then ["address_country"] else []))

/-- A NOT NULL address column receiving a JS `undefined` is rejected by the
database. -/
def reqCol : Option String → Except RepoErr String
  | some s => .ok s
  | none => .error .notNullViolation

/-- `PatientRepository.update`.  Three paths, exactly as in the source:

* no recognised field in the payload → return the existing row, executing
  no UPDATE statement;
* `firstName`, `lastName`, `dateOfBirth`, `status` and `address` all
  present → one full UPDATE that sets *every* column, sending
  `data.middleName || null`, `data.email || null`, `data.phone || null`
  (so optional fields absent from the payload are written as NULL);
* otherwise → merge the payload with the current row
  (`getCurrentForComparison`) field by field and UPDATE with the merged
  values.

The row trigger refreshes `updated_at` on every executed UPDATE.  The
returned trace records the UPDATE statements executed. -/
def PatientRepository.update (ps : List PatientRow) (id : String)
    (d : PatientPatch) (now : String) :
    Except RepoErr (PatientRow × List PatientRow × List DbStmt) :=
  if updateCols d = [] then
    match lookupPatient ps id with
    | none => .error .notFound
    | some p => .ok (p, ps, [])
  else
    match d.firstName, d.lastName, d.dateOfBirth, d.status, d.address with
    | some fn, some ln, some dob, some st, some a => do
      let street ← reqCol a.street
      let city ← reqCol a.city
      let state ← reqCol a.state
      let zip ← reqCol a.zipCode
      let country ← reqCol a.country
      match lookupPatient ps id with
      | none => .error .notFound
      | some p =>
        let row := { p with
          first_name := fn
          middle_name := jsOrNull d.middleName
          last_name := ln
          date_of_birth := dob
          status := st
          email := jsOrNull d.email
          phone := jsOrNull d.phone
          address_street := street
          address_city := city
          address_state := state
          address_zip_code := zip
          address_country := country
          updated_at := now }
        .ok (row, replaceRow ps id row, [.updateTable id])
    | _, _, _, _, _ =>
      match lookupPatient ps id with
      | none => .error .notFound
      | some cur =>
        let row := { cur with
          first_name := d.firstName.getD cur.first_name
          middle_name :=
            match d.middleName with
            | some s => jsOrNull (some s)
            | none => cur.middle_name
          last_name := d.lastName.getD cur.last_name
          date_of_birth := d.dateOfBirth.getD cur.date_of_birth
          status := d.status.getD cur.status
          email :=
            match d.email with
            | some s => jsOrNull (some s)
            | none => cur.email
          phone :=
            match d.phone with
            | some s => jsOrNull (some s)
            | none => cur.phone
          address_street := (d.address.bind fun a => a.street).getD cur.address_street
          address_city := (d.address.bind fun a => a.city).getD cur.address_city
          address_state := (d.address.bind fun a => a.state).getD cur.address_state
          address_zip_code := (d.address.bind fun a => a.zipCode).getD cur.address_zip_code
          address_country := (d.address.bind fun a => a.country).getD cur.address_country
          updated_at := now }
        .ok (row, replaceRow ps id row, [.updateTable id])

/-- `PatientRepository.delete`: `DELETE FROM patients WHERE id = …`; a zero
row count raises "Patient not found".  Deleting the row cascades to its
audit-log rows (`ON DELETE CASCADE` in the schema). -/
def PatientRepository.delete (db : Db) (id : String) :
    Except RepoErr (Db × List DbStmt) :=
  if db.patients.any (fun r => r.id == id) then
    .ok ({ patients := db.patients.filter fun r => !(r.id == id)
           audits := db.audits.filter fun e => !(e.patient_id == id) },
         [.deleteRow id])
  else .error .notFound

/-- The payload of `AuditLogService.createAuditLog` /
`AuditLogRepository.create`. -/
structure AuditInput where
  patientId : String
  action : String
  fieldName : Option String := none
  oldValue : Option String := none
  newValue : Option String := none
  performedBy : Option String := none
  notes : Option String := none
  deriving Repr, DecidableEq

/-- The row `AuditLogRepository.create` inserts: action-specific fields
default to NULL via `x || null`, `performed_by` defaults to `'System'` via
`data.performedBy || 'System'`. -/
def auditRowOf (data : AuditInput) : AuditEntry :=
  { patient_id := data.patientId
    action := data.action
    field_name := jsOrNull data.fieldName
    old_value := jsOrNull data.oldValue
    new_value := jsOrNull data.newValue
    performed_by :=
      match jsTruthy data.performedBy with
      | some s => s
      | none => "System"
    notes := jsOrNull data.notes }

/-- `AuditLogRepository.create`: a single INSERT into `audit_logs`. -/
def AuditLogRepository.create (db : Db) (data : AuditInput) :
    AuditEntry × Db × List DbStmt :=
  let e := auditRowOf data
  (e, { db with audits := db.audits ++ [e] }, [.insertAudit e])

/-! ## Patient service -/

/-- One element of the `changes` array `updatePatient` accumulates. -/
structure FieldChange where
  field : String
  oldValue : Option String
  newValue : String
  isStatusChange : Bool
  deriving Repr, DecidableEq

/-- JS strict inequality `v !== current.col` for a nullable column: a
string never equals `null`. -/
def neOpt (v : String) : Option String → Bool
  | some w => v != w
  | none => true

/-- The field-by-field diff of `PatientService.updatePatient` (lines
109-145): it inspects `firstName`, `lastName`, `status`, `dateOfBirth`,
`email`, `phone` and, when `data.address` is truthy, the five address
sub-fields — in that source order.  `middleName` is never inspected. -/
def computeChanges (d : PatientPatch) (cur : PatientRow) : List FieldChange :=
  (match d.firstName with
   | some v => if v != cur.first_name then
       [⟨"firstName", some cur.first_name, v, false⟩] else []
   | none => []) ++
  (match d.lastName with
   | some v => if v != cur.last_name then
       [⟨"lastName", some cur.last_name, v, false⟩] else []
   | none => []) ++
  (match d.status with
   | some v => if v != cur.status then
       [⟨"status", some cur.status, v, true⟩] else []
   | none => []) ++
  (match d.dateOfBirth with
   | some v => if v != cur.date_of_birth then
       [⟨"dateOfBirth", some cur.date_of_birth, v, false⟩] else []
   | none => []) ++
  (match d.email with
   | some v => if neOpt v cur.email then
       [⟨"email", cur.email, v, false⟩] else []
   | none => []) ++
  (match d.phone with
   | some v => if neOpt v cur.phone then
       [⟨"phone", cur.phone, v, false⟩] else []
   | none => []) ++
  (match d.address with
   | none => []
   | some a =>
     (match a.street with
      | some v => if v != cur.address_street then
          [⟨"address.street", some cur.address_street, v, false⟩] else []
      | none => []) ++
     (match a.city with
      | some v => if v != cur.address_city then
          [⟨"address.city", some cur.address_city, v, false⟩] else []
      | none => []) ++
     (match a.state with
      | some v => if v != cur.address_state then
          [⟨"address.state", some cur.address_state, v, false⟩] else []
      | none => []) ++
     (match a.zipCode with
      | some v => if v != cur.address_zip_code then
          [⟨"address.zipCode", some cur.address_zip_code, v, false⟩] else []
      | none => []) ++
     (match a.country with
      | some v => if v != cur.address_country then
          [⟨"address.country", some cur.address_country, v, false⟩] else []
      | none => []))

/-- The audit row `updatePatient` creates for one change: action
`STATUS_CHANGE` for the status field and `UPDATE` otherwise, values passed
through `String(x || '')`. -/
def auditRowOfChange (id : String) (ch : FieldChange) : AuditEntry :=
  auditRowOf
    { patientId := id
      action := if ch.isStatusChange then "STATUS_CHANGE" else "UPDATE"
      fieldName := some ch.field
      oldValue := some (jsStrOrEmpty ch.oldValue)
      newValue := some (jsStrOrEmpty (some ch.newValue))
      performedBy := some "System"
      notes := some ("Updated " ++ ch.field) }

/-- `PatientService.updatePatient`: load the current row for comparison
(404 when absent), run the repository update, then insert one audit row per
computed change.  Returns the handler-visible result, the successor store
and the executed write statements. -/
def PatientService.updatePatient (db : Db) (id : String) (d : PatientPatch)
    (now : String) : Except SvcErr PatientRow × Db × List DbStmt :=
  match lookupPatient db.patients id with
  | none => (.error .notFound, db, [])
  | some cur =>
    match PatientRepository.update db.patients id d now with
    | .error _ => (.error .database, db, [])
    | .ok (row, ps, stmts) =>
      let entries := (computeChanges d cur).map (auditRowOfChange id)
      (.ok row,
       { patients := ps, audits := db.audits ++ entries },
       stmts ++ entries.map .insertAudit)

/-- `PatientService.deletePatient`: verify existence (404 otherwise), insert
the DELETE audit row, then delete the patient row (which cascades). -/
def PatientService.deletePatient (db : Db) (id : String) :
    Except SvcErr Unit × Db × List DbStmt :=
  match lookupPatient db.patients id with
  | none => (.error .notFound, db, [])
  | some p =>
    match AuditLogRepository.create db
      { patientId := id
        action := "DELETE"
        performedBy := some "System"
        notes := some ("Deleted patient " ++ p.first_name ++ " " ++ p.last_name) } with
    | (_, db1, s1) =>
      match PatientRepository.delete db1 id with
      | .error _ => (.error .database, db1, s1)
      | .ok (db2, s2) => (.ok (), db2, s1 ++ s2)

/-! ## Request-body validation (zod schemas + client-side helpers)

`PatientFormBody` is a create/update request body once JSON parsing and
structural typing have succeeded: optional fields are `Option String`.
The checks below embed `AddressSchema` / `PatientFormDataSchema` from the
patient schema module and `validateAddress` from the UI utility module. -/

structure AddressBody where
  street : String
  city : String
  state : String
  zipCode : String
  country : Option String := none
  deriving Repr, DecidableEq

structure PatientFormBody where
  firstName : String
  middleName : Option String := none
  lastName : String
  dateOfBirth : String
  status : String
  email : Option String := none
  phone : Option String := none
  address : AddressBody
  deriving Repr, DecidableEq

/-- ASCII decimal digit. -/
def isDigitB (c : Char) : Bool := decide ('0' ≤ c ∧ c ≤ '9')

/-- The `dateOfBirth` regex of `PatientFormDataSchema`:
`/^\d{4}-\d{2}-\d{2}$/`. -/
def dobFormat (s : String) : Bool :=
  match s.toList with
  | [a, b, c, d, '-', e, f, '-', g, h] =>
    [a, b, c, d, e, f, g, h].all isDigitB
  | _ => false

/-- The ZIP regex of the client-side `validateAddress` helper:
`/^\d{5}(-\d{4})?$/` — `NNNNN` or `NNNNN-NNNN`. -/
def zipFormat (s : String) : Bool :=
  match s.toList with
  | [a, b, c, d, e] => [a, b, c, d, e].all isDigitB
  | [a, b, c, d, e, '-', f, g, h, i] =>
    [a, b, c, d, e, f, g, h, i].all isDigitB
  | _ => false

/-- Modelled from the spec: "email, if present, valid email syntax".  The
schema calls `z.string().email()`, whose implementation lives in the
external zod library and is not part of this repository's sources; this
executable stand-in (exactly one `@`, non-empty local part, dot-separated
non-trivial domain, no spaces) is used uniformly wherever the sources or
the spec appeal to "valid email syntax", so no claim is decided by its
internal details. -/
def isEmailSyntax (s : String) : Bool :=
  match s.toList.splitOn '@' with
  | [loc, dom] =>
    !loc.isEmpty && !dom.isEmpty && dom.contains '.' &&
    dom.head? != some '.' && dom.getLast? != some '.' &&
    !s.toList.contains ' '
  | _ => false

/-- `PatientStatusSchema`: the closed enum. -/
def statusEnum (s : String) : Bool :=
  ["Inquiry", "Onboarding", "Active", "Churned"].contains s

/-- `AddressSchema`: `street`/`city` non-empty and at most 255 characters,
`state` at most 100, `zipCode` at most 20, `country` (when supplied)
non-empty and at most 100 — `country` also carries `.default('USA')`, so
an absent country passes and is filled in by `parse`. -/
def AddressSchema.check (a : AddressBody) : Bool :=
  (1 ≤ a.street.length && a.street.length ≤ 255) &&
  (1 ≤ a.city.length && a.city.length ≤ 255) &&
  (1 ≤ a.state.length && a.state.length ≤ 100) &&
  (1 ≤ a.zipCode.length && a.zipCode.length ≤ 20) &&
  (match a.country with
   | none => true
   | some c => 1 ≤ c.length && c.length ≤ 100)

/-- `PatientFormDataSchema`: the create/update body schema.  Optional
string fields accept absence and the empty-string literal
(`.optional().or(z.literal(''))`). -/
def PatientFormDataSchema.check (b : PatientFormBody) : Bool :=
  (1 ≤ b.firstName.length && b.firstName.length ≤ 255) &&
  (match b.middleName with
   | none => true
   | some m => m.length ≤ 255 || m == "") &&
  (1 ≤ b.lastName.length && b.lastName.length ≤ 255) &&
  dobFormat b.dateOfBirth &&
  statusEnum b.status &&
  (match b.email with
   | none => true
   | some e => isEmailSyntax e || e == "") &&
  (match b.phone with
   | none => true
   | some p => p.length ≤ 50 || p == "") &&
  AddressSchema.check b.address

/-- `validateRequest` / `createValidationHandler` applied to
`PatientFormDataSchema`: a conforming body parses (with the `country`
default applied), anything else is rejected with a `ValidationError`
(mapped to HTTP 400). -/
def validatePatientForm (b : PatientFormBody) : Except SvcErr PatientFormBody :=
  if PatientFormDataSchema.check b then
    .ok { b with address := { b.address with
            country := some (b.address.country.getD "USA") } }
  else .error .validation

/-- JS whitespace, for modelling `String.prototype.trim`. -/
def isSpaceChar (c : Char) : Bool :=
  c == ' ' || c == '\t' || c == '\n' || c == '\r'

/-- The characters of `s.trim()`: whitespace stripped from both ends. -/
def trimmed (s : String) : List Char :=
  ((s.toList.dropWhile isSpaceChar).reverse.dropWhile isSpaceChar).reverse

/-- `!x?.trim()` — the string is absent or whitespace-only. -/
def isBlank (s : String) : Bool := (trimmed s).isEmpty

/-- `validateAddress` from the UI utility module: requires every sub-field
non-blank and the ZIP to match `NNNNN` or `NNNNN-NNNN`.  (`isValid` is the
absence of errors.) -/
def validateAddress.isValid (street city state zipCode country : String) : Bool :=
  !(isBlank street) && !(isBlank city) && !(isBlank state) &&
  (!(isBlank zipCode) && zipFormat zipCode) && !(isBlank country)

/-! ## Basic properties of the collation order -/

theorem charsLe_total (s t : List Char) :
    charsLe s t = true ∨ charsLe t s = true := by
  induction s generalizing t with
  | nil => left; rfl
  | cons a s ih =>
    cases t with
    | nil => right; rfl
    | cons b t =>
      by_cases hab : a = b
      · subst hab
        rcases ih t with h | h
        · left; simpa [charsLe] using h
        · right; simpa [charsLe] using h
      · rcases lt_or_gt_of_ne hab with h | h
        · left; simp [charsLe, hab, h]
        · right; simp [charsLe, Ne.symm hab, h]

theorem charsLe_trans (s t u : List Char) (h1 : charsLe s t = true)
    (h2 : charsLe t u = true) : charsLe s u = true := by
  induction s generalizing t u with
  | nil => rfl
  | cons a s ih =>
    cases t with
    | nil => simp [charsLe] at h1
    | cons b t =>
      cases u with
      | nil => simp [charsLe] at h2
      | cons c u =>
        by_cases hab : a = b
        · subst hab
          simp only [charsLe, if_pos rfl] at h1
          by_cases hbc : a = c
          · subst hbc
            simp only [charsLe, if_pos rfl] at h2 ⊢
            exact ih t u h1 h2
          · simp only [charsLe, if_neg hbc] at h2 ⊢
            exact h2
        · simp only [charsLe, if_neg hab, decide_eq_true_iff] at h1
          by_cases hbc : b = c
          · subst hbc
            simp [charsLe, hab, h1]
          · simp only [charsLe, if_neg hbc, decide_eq_true_iff] at h2
            have hac : a < c := lt_trans h1 h2
            have : a ≠ c := ne_of_lt hac
            simp [charsLe, this, hac]

theorem charsLe_antisymm (s t : List Char) (h1 : charsLe s t = true)
    (h2 : charsLe t s = true) : s = t := by
  induction s generalizing t with
  | nil =>
    cases t with
    | nil => rfl
    | cons b t => simp [charsLe] at h2
  | cons a s ih =>
    cases t with
    | nil => simp [charsLe] at h1
    | cons b t =>
      by_cases hab : a = b
      · subst hab
        simp only [charsLe, if_pos rfl] at h1 h2
        rw [ih t h1 h2]
      · simp only [charsLe, if_neg hab, decide_eq_true_iff] at h1
        simp only [charsLe, if_neg (Ne.symm hab), decide_eq_true_iff] at h2
        exact absurd h1 (not_lt_of_lt h2)

theorem strLe_total (a b : String) : strLe a b = true ∨ strLe b a = true :=
  charsLe_total a.toList b.toList

theorem strLe_trans (a b c : String) (h1 : strLe a b = true)
    (h2 : strLe b c = true) : strLe a c = true :=
  charsLe_trans a.toList b.toList c.toList h1 h2

theorem strLe_antisymm (a b : String) (h1 : strLe a b = true)
    (h2 : strLe b a = true) : a = b := by
  have h := charsLe_antisymm a.toList b.toList h1 h2
  cases a; cases b; simpa [String.toList] using congrArg String.mk h

theorem nameLe_total (a b : PatientRow) :
    nameLe a b = true ∨ nameLe b a = true := by
  by_cases h : a.last_name = b.last_name
  · simp only [nameLe, if_pos h, if_pos h.symm]
    exact strLe_total a.first_name b.first_name
  · simp only [nameLe, if_neg h, if_neg (Ne.symm h)]
    exact strLe_total a.last_name b.last_name

theorem nameLe_trans (a b c : PatientRow) (h1 : nameLe a b = true)
    (h2 : nameLe b c = true) : nameLe a c = true := by
  unfold nameLe at h1 h2 ⊢
  by_cases hab : a.last_name = b.last_name <;>
    by_cases hbc : b.last_name = c.last_name
  · have hac : a.last_name = c.last_name := hab.trans hbc
    rw [if_pos hab] at h1
    rw [if_pos hbc] at h2
    rw [if_pos hac]
    exact strLe_trans _ _ _ h1 h2
  · have hac : a.last_name ≠ c.last_name := fun h => hbc (hab ▸ h)
    rw [if_neg hbc] at h2
    rw [if_neg hac, hab]
    exact h2
  · have hac : a.last_name ≠ c.last_name := fun h => hab (h.trans hbc.symm)
    rw [if_neg hab] at h1
    rw [if_neg hac, ← hbc]
    exact h1
  · rw [if_neg hab] at h1
    rw [if_neg hbc] at h2
    by_cases hac : a.last_name = c.last_name
    · exfalso
      refine hab (strLe_antisymm _ _ h1 ?_)
      rw [hac]
      exact h2
    · rw [if_neg hac]
      exact strLe_trans _ _ _ h1 h2

theorem keyLe_total (key : PatientRow → String) (asc : Bool) (a b : PatientRow) :
    keyLe key asc a b = true ∨ keyLe key asc b a = true := by
  cases asc <;> simp only [keyLe, Bool.false_eq_true, if_false, if_true] <;>
    first
      | exact (strLe_total (key b) (key a))
      | exact (strLe_total (key a) (key b))

theorem keyLe_trans (key : PatientRow → String) (asc : Bool) (a b c : PatientRow)
    (h1 : keyLe key asc a b = true) (h2 : keyLe key asc b c = true) :
    keyLe key asc a c = true := by
  cases asc <;> simp only [keyLe, Bool.false_eq_true, if_false, if_true] at h1 h2 ⊢
  · exact strLe_trans _ _ _ h2 h1
  · exact strLe_trans _ _ _ h1 h2

/-! ## Sorting lemmas -/

theorem mem_insertLe {le : α → α → Bool} (a x : α) (l : List α) :
    x ∈ insertLe le a l ↔ x = a ∨ x ∈ l := by
  induction l with
  | nil => simp [insertLe]
  | cons b t ih =>
    simp only [insertLe]
    split
    · simp [List.mem_cons]
    · simp only [List.mem_cons, ih]
      tauto

theorem mem_sortByLe {le : α → α → Bool} (x : α) (l : List α) :
    x ∈ sortByLe le l ↔ x ∈ l := by
  induction l with
  | nil => simp [sortByLe]
  | cons a t ih => simp [sortByLe, mem_insertLe, ih]

theorem pairwise_insertLe {le : α → α → Bool}
    (htot : ∀ a b, le a b = true ∨ le b a = true)
    (htrans : ∀ a b c, le a b = true → le b c = true → le a c = true)
    (a : α) (l : List α) (h : l.Pairwise fun x y => le x y = true) :
    (insertLe le a l).Pairwise fun x y => le x y = true := by
  induction l with
  | nil => simp [insertLe]
  | cons b t ih =>
    rcases List.pairwise_cons.mp h with ⟨hb, ht⟩
    simp only [insertLe]
    split
    · rename_i hab
      refine List.pairwise_cons.mpr ⟨?_, h⟩
      intro x hx
      rcases List.mem_cons.mp hx with rfl | hx
      · exact hab
      · exact htrans a b x hab (hb x hx)
    · rename_i hab
      have hba : le b a = true := (htot a b).resolve_left hab
      refine List.pairwise_cons.mpr ⟨?_, ih ht⟩
      intro x hx
      rcases (mem_insertLe a x t).mp hx with rfl | hx
      · exact hba
      · exact hb x hx

theorem pairwise_sortByLe {le : α → α → Bool}
    (htot : ∀ a b, le a b = true ∨ le b a = true)
    (htrans : ∀ a b c, le a b = true → le b c = true → le a c = true)
    (l : List α) :
    (sortByLe le l).Pairwise fun x y => le x y = true := by
  induction l with
  | nil => simp [sortByLe]
  | cons a t ih => exact pairwise_insertLe htot htrans a _ ih

/-! ## The `LIKE '%q%'` / substring theory -/

theorem bool_ext {a b : Bool} (h : a = true ↔ b = true) : a = b := by
  cases a <;> cases b <;> simp_all

theorem leadSeg_iff (p t : List Char) : leadSeg p t = true ↔ p <+: t := by
  induction p generalizing t with
  | nil => simp [leadSeg]
  | cons c p ih =>
    cases t with
    | nil => simp [leadSeg]
    | cons d t => simp [leadSeg, List.cons_prefix_cons, ih]

theorem mem_listSuffixes (x t : List Char) :
    x ∈ listSuffixes t ↔ ∃ n, x = t.drop n := by
  induction t with
  | nil =>
    simp only [listSuffixes, List.mem_singleton, List.drop_nil]
    exact ⟨fun h => ⟨0, h⟩, fun ⟨_, h⟩ => h⟩
  | cons c t ih =>
    simp only [listSuffixes, List.mem_cons, ih]
    constructor
    · rintro (rfl | ⟨n, rfl⟩)
      · exact ⟨0, rfl⟩
      · exact ⟨n + 1, List.drop_succ_cons.symm⟩
    · rintro ⟨n, rfl⟩
      cases n with
      | zero => left; rfl
      | succ n => right; exact ⟨n, List.drop_succ_cons⟩

theorem infix_iff_drop (s t : List Char) : s <:+: t ↔ ∃ n, s <+: t.drop n := by
  constructor
  · rintro ⟨u, v, rfl⟩
    refine ⟨u.length, ?_⟩
    rw [List.append_assoc, List.drop_left]
    exact List.prefix_append s v
  · rintro ⟨n, u, hu⟩
    refine ⟨t.take n, u, ?_⟩
    rw [List.append_assoc, hu, List.take_append_drop]

theorem jsIncludes_iff (hay needle : String) :
    jsIncludes hay needle = true ↔ needle.toList <:+: hay.toList := by
  rw [infix_iff_drop]
  simp only [jsIncludes, List.any_eq_true, mem_listSuffixes]
  constructor
  · rintro ⟨x, ⟨n, rfl⟩, h⟩
    exact ⟨n, (leadSeg_iff _ _).mp h⟩
  · rintro ⟨n, h⟩
    exact ⟨_, ⟨n, rfl⟩, (leadSeg_iff _ _).mpr h⟩

theorem likeMatch_percent (p t : List Char) :
    likeMatch ('%' :: p) t = true ↔ ∃ n, likeMatch p (t.drop n) = true := by
  show ((listSuffixes t).any fun t' => likeMatch p t') = true ↔ _
  rw [List.any_eq_true]
  constructor
  · rintro ⟨x, hx, h⟩
    obtain ⟨n, rfl⟩ := (mem_listSuffixes x t).mp hx
    exact ⟨n, h⟩
  · rintro ⟨n, h⟩
    exact ⟨_, (mem_listSuffixes _ t).mpr ⟨n, rfl⟩, h⟩

/-- A character without `LIKE` wildcard meaning. -/
def notMeta (c : Char) : Bool := !(c == '%') && !(c == '_')

/-- A search string for which `LIKE '%q%'` means plain substring
containment: one with no `%` and no `_`. -/
def likeSafe (q : String) : Bool := q.toList.all notMeta

theorem likeMatch_single_percent (t : List Char) : likeMatch ['%'] t = true :=
  (likeMatch_percent [] t).mpr ⟨t.length, by simp [likeMatch]⟩

theorem likeMatch_plain (s t : List Char) (hs : s.all notMeta = true) :
    likeMatch (s ++ ['%']) t = true ↔ s <+: t := by
  induction s generalizing t with
  | nil => simp [likeMatch_single_percent t]
  | cons c s ih =>
    rw [List.all_cons, Bool.and_eq_true] at hs
    obtain ⟨hc, hs⟩ := hs
    rw [notMeta, Bool.and_eq_true, Bool.not_eq_eq_eq_not, Bool.not_eq_eq_eq_not,
      Bool.not_true, beq_eq_false_iff_ne, beq_eq_false_iff_ne] at hc
    obtain ⟨hcp, hcu⟩ := hc
    rw [List.cons_append]
    cases t with
    | nil =>
      rw [likeMatch.eq_def]
      simp [hcp]
    | cons d t =>
      rw [likeMatch.eq_def]
      simp only [if_neg hcp]
      simp [hcu, ih _ hs, List.cons_prefix_cons]

theorem likeContains_iff (q t : String) (hq : likeSafe q = true) :
    likeMatch (sqlContainsPat q) t.toList = true ↔ q.toList <:+: t.toList := by
  rw [sqlContainsPat, infix_iff_drop]
  rw [likeMatch_percent]
  exact exists_congr fun n => likeMatch_plain _ _ hq

/-! Lower-casing preserves the absence of wildcards and of emptiness. -/

theorem ofNat_notMeta (n : Nat) (h1 : 97 ≤ n) (h2 : n ≤ 122) :
    notMeta (Char.ofNat n) = true := by
  interval_cases n <;> decide

theorem lowChar_notMeta (c : Char) (h : notMeta c = true) :
    notMeta (lowChar c) = true := by
  unfold lowChar
  split
  · rename_i hr
    exact ofNat_notMeta _ (by omega) (by omega)
  · exact h

theorem lowStr_toList (s : String) : (lowStr s).toList = s.toList.map lowChar :=
  rfl

theorem lowStr_likeSafe (s : String) (h : likeSafe s = true) :
    likeSafe (lowStr s) = true := by
  rw [likeSafe, lowStr_toList, List.all_map]
  rw [likeSafe, List.all_eq_true] at h
  rw [List.all_eq_true]
  intro c hc
  exact lowChar_notMeta c (h c hc)

theorem lowStr_toList_ne_nil (s : String) (h : s ≠ "") :
    (lowStr s).toList ≠ [] := by
  rw [lowStr_toList]
  simp only [ne_eq, List.map_eq_nil_iff]
  intro hn
  apply h
  cases s with
  | mk data =>
    have hd : data = [] := hn
    rw [hd]

theorem likeCI_iff (q f : String) (hq : likeSafe q = true) :
    likeCI q f = true ↔ (lowStr q).toList <:+: (lowStr f).toList :=
  likeContains_iff (lowStr q) (lowStr f) (lowStr_likeSafe q hq)

theorem likeCS_iff (q f : String) (hq : likeSafe q = true) :
    likeCS q f = true ↔ q.toList <:+: f.toList :=
  likeContains_iff q f hq

/-! ## Further helper lemmas about the repository and service -/

theorem opt_none_of_ite (o : Option String) (s : String)
    (h : (if o.isSome = true then [s] else []) = ([] : List String)) :
    o = none := by
  rcases ho : o with _ | v
  · rfl
  · rw [ho] at h
    simp at h

/-- An empty `updates` column list means every recognised payload field is
absent. -/
theorem updateCols_nil (d : PatientPatch) (h : updateCols d = []) :
    d.firstName = none ∧ d.middleName = none ∧ d.lastName = none ∧
    d.dateOfBirth = none ∧ d.status = none ∧ d.email = none ∧ d.phone = none ∧
    (d.address.bind fun a => a.street) = none ∧
    (d.address.bind fun a => a.city) = none ∧
    (d.address.bind fun a => a.state) = none ∧
    (d.address.bind fun a => a.zipCode) = none ∧
    (d.address.bind fun a => a.country) = none := by
  unfold updateCols at h
  cases hd : d.address with
  | none =>
    rw [hd] at h
    simp only [List.append_nil, List.append_eq_nil, and_assoc] at h
    obtain ⟨h1, h2, h3, h4, h5, h6, h7⟩ := h
    exact ⟨opt_none_of_ite _ _ h1, opt_none_of_ite _ _ h2, opt_none_of_ite _ _ h3,
      opt_none_of_ite _ _ h4, opt_none_of_ite _ _ h5, opt_none_of_ite _ _ h6,
      opt_none_of_ite _ _ h7, rfl, rfl, rfl, rfl, rfl⟩
  | some a =>
    rw [hd] at h
    simp only [List.append_eq_nil, and_assoc] at h
    obtain ⟨h1, h2, h3, h4, h5, h6, h7, g1, g2, g3, g4, g5⟩ := h
    simp only [Option.some_bind]
    exact ⟨opt_none_of_ite _ _ h1, opt_none_of_ite _ _ h2, opt_none_of_ite _ _ h3,
      opt_none_of_ite _ _ h4, opt_none_of_ite _ _ h5, opt_none_of_ite _ _ h6,
      opt_none_of_ite _ _ h7, opt_none_of_ite _ _ g1, opt_none_of_ite _ _ g2,
      opt_none_of_ite _ _ g3, opt_none_of_ite _ _ g4, opt_none_of_ite _ _ g5⟩

/-- A payload with no recognised fields produces an empty diff. -/
theorem computeChanges_nil (d : PatientPatch) (p : PatientRow)
    (h : updateCols d = []) : computeChanges d p = [] := by
  obtain ⟨n1, n2, n3, n4, n5, n6, n7, m1, m2, m3, m4, m5⟩ := updateCols_nil d h
  unfold computeChanges
  rw [n1, n3, n4, n5, n6, n7]
  cases ha : d.address with
  | none => rfl
  | some a =>
    rw [ha] at m1 m2 m3 m4 m5
    simp only [Option.some_bind] at m1 m2 m3 m4 m5
    simp [m1, m2, m3, m4, m5]

theorem lookup_any (ps : List PatientRow) (id : String) (p : PatientRow)
    (h : lookupPatient ps id = some p) : (ps.any fun r => r.id == id) = true := by
  unfold lookupPatient at h
  rw [List.any_eq_true]
  have hm := List.mem_of_find?_eq_some h
  have hpred := List.find?_some h
  exact ⟨p, hm, hpred⟩

/-- The guard of the "full update" branch of `PatientRepository.update`:
`data.firstName !== undefined && data.lastName !== undefined &&
data.dateOfBirth !== undefined && data.status !== undefined && data.address`. -/
def isFullForm (d : PatientPatch) : Bool :=
  d.firstName.isSome && d.lastName.isSome && d.dateOfBirth.isSome &&
  d.status.isSome && d.address.isSome

/-! ## Specification-level predicates

These definitions follow the words of the specification and are compared
against the implementation-derived definitions above. -/

/-- The compound name key of the specification: non-decreasing on
(lastName, firstName) lexicographically. -/
def nameKeyLe (a b : PatientRow) : Prop :=
  (a.last_name ≠ b.last_name ∧ strLe a.last_name b.last_name = true) ∨
  (a.last_name = b.last_name ∧ strLe a.first_name b.first_name = true)

theorem nameLe_iff (a b : PatientRow) : nameLe a b = true ↔ nameKeyLe a b := by
  unfold nameLe nameKeyLe
  by_cases h : a.last_name = b.last_name <;> simp [h]

/-- Case-insensitive substring occurrence of `s` in `t` (specification
wording). -/
def subCI (s t : String) : Bool := jsIncludes (lowStr t) (lowStr s)

/-- The specification-level search predicate: the search string occurs
case-insensitively as a substring of the first name, middle name, last name
or email, or occurs as a substring of the phone. -/
def specSearchHit (s : String) (r : PatientRow) : Bool :=
  subCI s r.first_name ||
  (match r.middle_name with | some m => subCI s m | none => false) ||
  subCI s r.last_name ||
  (match r.email with | some e => subCI s e | none => false) ||
  (match r.phone with | some ph => jsIncludes ph s | none => false)

theorem likeCI_eq_subCI (q f : String) (hq : likeSafe q = true) :
    likeCI q f = subCI q f :=
  bool_ext ((likeCI_iff q f hq).trans (jsIncludes_iff (lowStr f) (lowStr q)).symm)

theorem likeCS_eq_includes (q f : String) (hq : likeSafe q = true) :
    likeCS q f = jsIncludes f q :=
  bool_ext ((likeCS_iff q f hq).trans (jsIncludes_iff f q).symm)

theorem likeCI_empty (q : String) (hne : q ≠ "") (hq : likeSafe q = true) :
    likeCI q "" = false := by
  by_contra h
  rw [Bool.not_eq_false] at h
  have h2 := (likeCI_iff q "" hq).mp h
  have hlen := h2.sublist.length_le
  have h0 : (lowStr "").toList = ([] : List Char) := rfl
  rw [h0] at hlen
  simp only [List.length_nil, Nat.le_zero] at hlen
  exact lowStr_toList_ne_nil q hne (List.length_eq_zero.mp hlen)

theorem likeCS_empty (q : String) (hne : q ≠ "") (hq : likeSafe q = true) :
    likeCS q "" = false := by
  by_contra h
  rw [Bool.not_eq_false] at h
  have h2 := (likeCS_iff q "" hq).mp h
  have hlen := h2.sublist.length_le
  have h0 : ("" : String).toList = ([] : List Char) := rfl
  rw [h0] at hlen
  simp only [List.length_nil, Nat.le_zero] at hlen
  apply hne
  have hq0 := List.length_eq_zero.mp hlen
  cases q with
  | mk data =>
    have hd : data = [] := hq0
    rw [hd]

/-- The stated field rules of the request-body validation, with the ZIP rule
as the schema actually enforces it (non-empty, at most 20 characters; no
`NNNNN`/`NNNNN-NNNN` format check). -/
def C8rules (b : PatientFormBody) : Prop :=
  (1 ≤ b.firstName.length ∧ b.firstName.length ≤ 255) ∧
  (∀ m, b.middleName = some m → (m.length ≤ 255 ∨ m = "")) ∧
  (1 ≤ b.lastName.length ∧ b.lastName.length ≤ 255) ∧
  dobFormat b.dateOfBirth = true ∧
  statusEnum b.status = true ∧
  (∀ e, b.email = some e → (isEmailSyntax e = true ∨ e = "")) ∧
  (∀ ph, b.phone = some ph → (ph.length ≤ 50 ∨ ph = "")) ∧
  ((1 ≤ b.address.street.length ∧ b.address.street.length ≤ 255) ∧
   (1 ≤ b.address.city.length ∧ b.address.city.length ≤ 255) ∧
   (1 ≤ b.address.state.length ∧ b.address.state.length ≤ 100) ∧
   (1 ≤ b.address.zipCode.length ∧ b.address.zipCode.length ≤ 20) ∧
   (∀ c, b.address.country = some c → (1 ≤ c.length ∧ c.length ≤ 100)))

theorem schema_check_iff_rules (b : PatientFormBody) :
    PatientFormDataSchema.check b = true ↔ C8rules b := by
  unfold PatientFormDataSchema.check AddressSchema.check C8rules
  cases hm : b.middleName <;> cases he : b.email <;> cases hp : b.phone <;>
    cases hc : b.address.country <;>
    simp [Bool.and_eq_true, decide_eq_true_eq, Bool.or_eq_true, beq_iff_eq,
      and_assoc]

theorem strToList_append (a b : String) :
    (a ++ b).toList = a.toList ++ b.toList := String.data_append a b

/-- Modelled from the spec: the creation-date range filter
(`created_at >= dateFrom AND created_at <= dateTo`, as the variant listing
implementation words it); chronological comparison of the normalized
ISO-8601 timestamps coincides with the collation order on their text. -/
def createdInRange (dateFrom dateTo : Option String) (r : PatientRow) : Bool :=
  (match dateFrom with | none => true | some d => strLe d r.created_at) &&
  (match dateTo with | none => true | some d => strLe r.created_at d)

/-! ## Sample data used by the concrete theorems -/

def baseRow : PatientRow :=
  { id := "p1", first_name := "John", middle_name := none, last_name := "Smith",
    date_of_birth := "1990-01-01", status := "Active", email := none,
    phone := none, address_street := "1 Main St", address_city := "Springfield",
    address_state := "IL", address_zip_code := "62704",
    address_country := "USA", address_latitude := none,
    address_longitude := none, created_at := "2020-06-01T00:00:00.000Z",
    updated_at := "2020-06-01T00:00:00.000Z" }

def c1Row : PatientRow := { baseRow with middle_name := some "Ann" }

def c1RowAfter : PatientRow :=
  { c1Row with
    middle_name := some "Beth"
    updated_at := "2024-03-03T00:00:00.000Z" }

def c2Row : PatientRow :=
  { baseRow with
    id := "p2"
    created_at := "2020-01-15T00:00:00.000Z" }

def c3Row : PatientRow :=
  { baseRow with
    id := "p3"
    email := some "old@example.com" }

def c3FullPatch : PatientPatch :=
  { firstName := some "John"
    lastName := some "Smith"
    dateOfBirth := some "1990-01-01"
    status := some "Active"
    address := some
      { street := some "1 Main St", city := some "Springfield",
        state := some "IL", zipCode := some "62704", country := some "USA" } }

def c3RowAfter : PatientRow :=
  { c3Row with
    email := none
    updated_at := "2024-05-05T00:00:00.000Z" }

def c3wPatch : PatientPatch := { firstName := some "Johnny" }

def c3wAfter : PatientRow :=
  { c3Row with
    first_name := "Johnny"
    updated_at := "2024-06-06T00:00:00.000Z" }

def c4Row : PatientRow :=
  { baseRow with
    id := "p4"
    first_name := "Dana"
    last_name := "Reyes" }

def c5Row : PatientRow :=
  { baseRow with
    id := "p5"
    first_name := "Ada"
    last_name := "Lee"
    created_at := "2019-05-05T00:00:00.000Z" }

def c7Row : PatientRow :=
  { baseRow with
    id := "p7"
    first_name := "Mary"
    last_name := "Jones"
    email := some "mjones@example.com"
    phone := some "5551234567" }

def c7EmailRow : PatientRow :=
  { baseRow with
    id := "p8"
    first_name := "Alice"
    last_name := "Brown"
    email := some "asmith@example.com" }

def c8Addr : AddressBody :=
  { street := "1 Main St", city := "Springfield", state := "IL",
    zipCode := "62704" }

def c8BadZipBody : PatientFormBody :=
  { firstName := "John"
    lastName := "Smith"
    dateOfBirth := "1990-01-01"
    status := "Active"
    email := some "john@example.com"
    address := { c8Addr with zipCode := "ABCDE" } }

def c8BadNameBody : PatientFormBody :=
  { firstName := ""
    lastName := "Smith"
    dateOfBirth := "1990-01-01"
    status := "Active"
    address := c8Addr }

/-! ## Claim theorems -/

/-- C1.  The claim says every update payload touching N fields with changed
values creates exactly N audit entries, one per changed field.  Evaluating
the code at the failing input: for an existing patient whose middle name is
"Ann" and the payload `{ middleName: "Beth" }`, the diff of
`PatientService.updatePatient` is empty (the diff never inspects
`middleName`), so the update changes the stored `middle_name` (a real
change, an UPDATE statement runs, `updated_at` is refreshed) yet creates
zero audit entries — the claim requires exactly one entry with field name
`middleName`. -/
theorem C1_middleName_change_creates_no_audit :
    computeChanges { middleName := some "Beth" } c1Row = [] ∧
    PatientService.updatePatient { patients := [c1Row], audits := [] } "p1"
        { middleName := some "Beth" } "2024-03-03T00:00:00.000Z" =
      (.ok c1RowAfter, { patients := [c1RowAfter], audits := [] },
        [.updateTable "p1"]) ∧
    c1Row.middle_name ≠ c1RowAfter.middle_name := by decide

/-- C2.  The claim says a supplied creation-date range restricts both the
returned page and the total count.  Evaluating the code at the failing
input: for a store containing one patient created 2020-01-15 and a request
with `dateFrom = 2024-02-01`, `dateTo = 2024-12-31`, `findMany` (via
`buildCountQuery`/`buildDataQuery`, which never reference
`dateFrom`/`dateTo`) returns that patient and counts it, although its
creation timestamp is outside the supplied range.  Moreover the result of
`findMany` never depends on the date fields at all. -/
theorem C2_dateRange_filter_ignored :
    (findMany [c2Row]
        { dateFrom := some "2024-02-01T00:00:00.000Z",
          dateTo := some "2024-12-31T00:00:00.000Z" } {} = ([c2Row], 1) ∧
      createdInRange (some "2024-02-01T00:00:00.000Z")
        (some "2024-12-31T00:00:00.000Z") c2Row = false) ∧
    ∀ (ps : List PatientRow) (f : PatientQueryFilters)
      (o : PatientQueryOptions),
      findMany ps f o =
        findMany ps { f with dateFrom := none, dateTo := none } o := by
  refine ⟨by decide, fun ps f o => rfl⟩

/-- C3 (counterexample).  The claim says every field absent from the update
payload retains its prior stored value.  For a patient whose stored email is
`old@example.com` and a payload containing `firstName`, `lastName`,
`dateOfBirth`, `status` and a full `address` but *no* `email`,
`PatientRepository.update` takes its full-update branch and writes
`email = data.email || null`, clearing the stored email to NULL. -/
theorem C3_full_update_clears_absent_email :
    c3Row.email = some "old@example.com" ∧ c3FullPatch.email = none ∧
    PatientRepository.update [c3Row] "p3" c3FullPatch
        "2024-05-05T00:00:00.000Z" =
      .ok (c3RowAfter, [c3RowAfter], [.updateTable "p3"]) ∧
    c3RowAfter.email = none := by decide

/-- C3 (amended).  For every existing patient and every partial update
payload that does not simultaneously contain `firstName`, `lastName`,
`dateOfBirth`, `status` and an `address` object, every field absent from
the payload (including optional fields and every address sub-field not
supplied) retains its prior stored value; when the payload does contain all
five (the full-update branch), the absent optional fields `middleName`,
`email` and `phone` are instead cleared to NULL. -/
theorem C3_partial_update_preserves_absent_fields :
    ∀ (ps : List PatientRow) (id : String) (d : PatientPatch)
    (now : String) (p row : PatientRow) (ps' : List PatientRow)
    (st : List DbStmt),
    lookupPatient ps id = some p →
    PatientRepository.update ps id d now = .ok (row, ps', st) →
    (isFullForm d = false →
      (d.firstName = none → row.first_name = p.first_name) ∧
      (d.middleName = none → row.middle_name = p.middle_name) ∧
      (d.lastName = none → row.last_name = p.last_name) ∧
      (d.dateOfBirth = none → row.date_of_birth = p.date_of_birth) ∧
      (d.status = none → row.status = p.status) ∧
      (d.email = none → row.email = p.email) ∧
      (d.phone = none → row.phone = p.phone) ∧
      ((d.address.bind fun a => a.street) = none →
        row.address_street = p.address_street) ∧
      ((d.address.bind fun a => a.city) = none →
        row.address_city = p.address_city) ∧
      ((d.address.bind fun a => a.state) = none →
        row.address_state = p.address_state) ∧
      ((d.address.bind fun a => a.zipCode) = none →
        row.address_zip_code = p.address_zip_code) ∧
      ((d.address.bind fun a => a.country) = none →
        row.address_country = p.address_country)) ∧
    (isFullForm d = true →
      (d.middleName = none → row.middle_name = none) ∧
      (d.email = none → row.email = none) ∧
      (d.phone = none → row.phone = none)) := by
  intro ps id d now p row ps' st hp hupd
  unfold PatientRepository.update at hupd
  by_cases hc : updateCols d = []
  · rw [if_pos hc, hp] at hupd
    obtain ⟨n1, n2, n3, n4, n5, n6, n7, m1, m2, m3, m4, m5⟩ := updateCols_nil d hc
    injection hupd with h'
    rw [Prod.mk.injEq] at h'
    obtain ⟨hrow, -⟩ := h'
    subst hrow
    constructor
    · intro _
      exact ⟨fun _ => rfl, fun _ => rfl, fun _ => rfl, fun _ => rfl, fun _ => rfl,
        fun _ => rfl, fun _ => rfl, fun _ => rfl, fun _ => rfl, fun _ => rfl,
        fun _ => rfl, fun _ => rfl⟩
    · intro hfull
      rw [isFullForm, n1] at hfull
      simp at hfull
  · rw [if_neg hc] at hupd
    split at hupd
    · rename_i fn ln dob st' a hf hl hdob hst ha
      rcases has : a.street with _ | street
      · rw [has] at hupd
        simp [reqCol, Bind.bind, Except.bind] at hupd
      rcases hac : a.city with _ | city
      · rw [has, hac] at hupd
        simp [reqCol, Bind.bind, Except.bind] at hupd
      rcases hast : a.state with _ | state
      · rw [has, hac, hast] at hupd
        simp [reqCol, Bind.bind, Except.bind] at hupd
      rcases haz : a.zipCode with _ | zip
      · rw [has, hac, hast, haz] at hupd
        simp [reqCol, Bind.bind, Except.bind] at hupd
      rcases haco : a.country with _ | country
      · rw [has, hac, hast, haz, haco] at hupd
        simp [reqCol, Bind.bind, Except.bind] at hupd
      rw [has, hac, hast, haz, haco] at hupd
      simp only [reqCol, Bind.bind, Except.bind] at hupd
      rw [hp] at hupd
      injection hupd with h'
      rw [Prod.mk.injEq] at h'
      obtain ⟨hrow, -⟩ := h'
      subst hrow
      constructor
      · intro hfull
        exfalso
        rw [isFullForm, hf, hl, hdob, hst, ha] at hfull
        simp at hfull
      · intro _
        refine ⟨?_, ?_, ?_⟩
        · intro hmn
          simp [hmn, jsOrNull]
        · intro hem
          simp [hem, jsOrNull]
        · intro hph
          simp [hph, jsOrNull]
    · rename_i hno
      rw [hp] at hupd
      injection hupd with h'
      rw [Prod.mk.injEq] at h'
      obtain ⟨hrow, -⟩ := h'
      subst hrow
      constructor
      · intro _
        refine ⟨?_, ?_, ?_, ?_, ?_, ?_, ?_, ?_, ?_, ?_, ?_, ?_⟩ <;>
          intro h <;> simp [h]
      · intro hfull
        exfalso
        rw [isFullForm] at hfull
        simp only [Bool.and_eq_true, Option.isSome_iff_exists] at hfull
        obtain ⟨⟨⟨⟨⟨fn, hf⟩, ⟨ln, hl⟩⟩, ⟨dob, hdob⟩⟩, ⟨st', hst⟩⟩, ⟨a, ha⟩⟩ := hfull
        exact hno fn ln dob st' a hf hl hdob hst ha

/-- C3 (witness): the amended theorem applied to a concrete store and the
partial payload `{ firstName: "Johnny" }` — the absent `email` and
`middleName` are preserved. -/
theorem C3_partial_update_preserves_absent_fields_witness :
    c3wAfter.email = c3Row.email ∧ c3wAfter.middle_name = c3Row.middle_name := by
  have h := C3_partial_update_preserves_absent_fields [c3Row] "p3" c3wPatch
    "2024-06-06T00:00:00.000Z" c3Row c3wAfter [c3wAfter] [.updateTable "p3"]
    (by decide) (by decide)
  have h1 := h.1 (by decide)
  exact ⟨h1.2.2.2.2.2.1 rfl, h1.2.1 rfl⟩

/-- C4.  `deletePatient` on an id with no matching patient fails with
NotFound (mapped to HTTP 404), writes nothing and leaves the store
untouched; on an existing patient it first inserts a DELETE audit entry
referencing that patient and then deletes the patient row (the trace is
exactly the audit INSERT followed by the row DELETE, which cascades over
the audit rows of that patient), and the delete succeeds. -/
theorem C4_delete_requires_existence_and_logs_before_delete :
    ∀ (db : Db) (id : String),
    (lookupPatient db.patients id = none →
      PatientService.deletePatient db id = (.error .notFound, db, []) ∧
      SvcErr.notFound.statusCode = 404) ∧
    (∀ p, lookupPatient db.patients id = some p →
      ∃ e, PatientService.deletePatient db id =
          (.ok (), { patients := db.patients.filter fun r => !(r.id == id),
                     audits := (db.audits ++ [e]).filter fun a =>
                       !(a.patient_id == id) },
           [.insertAudit e, .deleteRow id]) ∧
        e.patient_id = id ∧ e.action = "DELETE") := by
  intro db id
  constructor
  · intro h
    unfold PatientService.deletePatient
    rw [h]
    exact ⟨rfl, rfl⟩
  · intro p h
    refine ⟨auditRowOf
      { patientId := id, action := "DELETE", performedBy := some "System",
        notes := some ("Deleted patient " ++ p.first_name ++ " " ++
          p.last_name) },
      ?_, rfl, rfl⟩
    unfold PatientService.deletePatient
    rw [h]
    unfold AuditLogRepository.create PatientRepository.delete
    dsimp only
    rw [if_pos (lookup_any db.patients id p h)]
    rfl

/-- C4 (witness): the theorem applied to a one-patient store, for both the
existing id and a missing id. -/
theorem C4_delete_witness :
    (∃ e, PatientService.deletePatient { patients := [c4Row], audits := [] }
        "p4" =
        (.ok (), { patients := [c4Row].filter fun r => !(r.id == "p4"),
                   audits := ([] ++ [e]).filter fun a =>
                     !(a.patient_id == "p4") },
         [.insertAudit e, .deleteRow "p4"]) ∧
      e.patient_id = "p4" ∧ e.action = "DELETE") ∧
    (PatientService.deletePatient { patients := [c4Row], audits := [] }
        "nope" =
      (.error .notFound, { patients := [c4Row], audits := [] }, []) ∧
     SvcErr.notFound.statusCode = 404) :=
  ⟨(C4_delete_requires_existence_and_logs_before_delete
      { patients := [c4Row], audits := [] } "p4").2 c4Row (by decide),
   (C4_delete_requires_existence_and_logs_before_delete
      { patients := [c4Row], audits := [] } "nope").1 (by decide)⟩

/-- C5 (counterexample).  The claim says all returned patients satisfy the
supplied filters; with a creation-date filter supplied, `findMany` returns
(and counts) a patient whose creation timestamp violates it, because the
query builder drops the date fields. -/
theorem C5_returned_page_violates_date_filter :
    (findMany [c5Row] { dateFrom := some "2023-01-01T00:00:00.000Z" } {}).1 =
      [c5Row] ∧
    (findMany [c5Row] { dateFrom := some "2023-01-01T00:00:00.000Z" } {}).2 =
      1 ∧
    createdInRange (some "2023-01-01T00:00:00.000Z") none c5Row = false := by
  decide

/-- C5 (amended).  For every combination of filters, `findMany` returns at
most `pageSize` patients, all satisfying the search and status predicates
(the creation-date fields are ignored by this implementation), and a
`totalCount` equal to the number of all stored patients satisfying those
same predicates; `totalCount` is the same for every choice of page and page
size. -/
theorem C5_pagination_and_count :
    ∀ (ps : List PatientRow) (f : PatientQueryFilters)
    (o : PatientQueryOptions),
    (findMany ps f o).1.length ≤ o.pageSize ∧
    (∀ r, r ∈ (findMany ps f o).1 → countQueryWhere f r = true) ∧
    (findMany ps f o).2 = (ps.filter fun r => countQueryWhere f r).length ∧
    (∀ o', (findMany ps f o').2 = (findMany ps f o).2) := by
  intro ps f o
  refine ⟨List.length_take_le _ _, ?_, rfl, fun o' => rfl⟩
  intro r hr
  have h1 : r ∈ sortByLe (dataQueryLe o) (ps.filter (countQueryWhere f)) :=
    ((List.take_sublist _ _).trans (List.drop_sublist _ _)).subset hr
  have h2 := (mem_sortByLe r _).mp h1
  exact (List.mem_filter.mp h2).2

/-- C5 (witness): the amended theorem applied to a concrete store with a
status filter. -/
theorem C5_pagination_and_count_witness :
    countQueryWhere { status := some "Active" } baseRow = true :=
  (C5_pagination_and_count [baseRow] { status := some "Active" } {}).2.1
    baseRow (by decide)

/-- C6.  For every store and every filter combination, a listing with
`sortField = name` is ordered by the compound key (last name, first name):
non-decreasing for `asc`, non-increasing for `desc`. -/
theorem C6_sort_by_name_compound_key :
    ∀ (ps : List PatientRow) (f : PatientQueryFilters) (page pageSize : Nat),
    (runDataQuery ps f
      { sortField := "name", sortDirection := "asc",
        page := page, pageSize := pageSize }).Pairwise nameKeyLe ∧
    (runDataQuery ps f
      { sortField := "name", sortDirection := "desc",
        page := page, pageSize := pageSize }).Pairwise
      (fun a b => nameKeyLe b a) := by
  intro ps f page pageSize
  constructor
  · have hsorted := @pairwise_sortByLe PatientRow (fun a b => nameLe a b)
      (fun a b => nameLe_total a b) (fun a b c => nameLe_trans a b c)
      (ps.filter (countQueryWhere f))
    have hsub : (((sortByLe (fun a b => nameLe a b)
          (ps.filter (countQueryWhere f))).drop ((page - 1) * pageSize)).take
            pageSize).Sublist
        (sortByLe (fun a b => nameLe a b) (ps.filter (countQueryWhere f))) :=
      (List.take_sublist _ _).trans (List.drop_sublist _ _)
    exact (List.Pairwise.sublist hsub hsorted).imp fun h => (nameLe_iff _ _).mp h
  · have hsorted := @pairwise_sortByLe PatientRow (fun a b => nameLe b a)
      (fun a b => nameLe_total b a) (fun a b c h1 h2 => nameLe_trans c b a h2 h1)
      (ps.filter (countQueryWhere f))
    have hsub : (((sortByLe (fun a b => nameLe b a)
          (ps.filter (countQueryWhere f))).drop ((page - 1) * pageSize)).take
            pageSize).Sublist
        (sortByLe (fun a b => nameLe b a) (ps.filter (countQueryWhere f))) :=
      (List.take_sublist _ _).trans (List.drop_sublist _ _)
    exact (List.Pairwise.sublist hsub hsorted).imp fun h => (nameLe_iff _ _).mp h

/-- C7 (counterexample).  The claim's "matched iff substring" equivalence
fails for search strings containing `LIKE` wildcards: the search string
`_` (a single-character wildcard under `LIKE`) matches a patient named
Mary Jones although `_` is not a substring of any of her fields. -/
theorem C7_wildcard_search_counterexample :
    searchWhere "_" c7Row = true ∧ specSearchHit "_" c7Row = false := by decide

/-- C7 (amended).  For every non-empty search string containing no SQL
`LIKE` metacharacter (`%` or `_`), a patient is matched by the search
filter iff the string occurs case-insensitively as a substring of the
first name, middle name, last name or email, or occurs as a substring of
the phone. -/
theorem C7_search_iff_substring :
    ∀ (s : String) (r : PatientRow),
    s ≠ "" → likeSafe s = true → searchWhere s r = specSearchHit s r := by
  intro s r hne hsafe
  unfold searchWhere specSearchHit
  have h1 : likeCI s r.first_name = subCI s r.first_name :=
    likeCI_eq_subCI _ _ hsafe
  have h3 : likeCI s r.last_name = subCI s r.last_name :=
    likeCI_eq_subCI _ _ hsafe
  have h2 : likeCI s (coalesce r.middle_name) =
      (match r.middle_name with | some m => subCI s m | none => false) := by
    cases r.middle_name with
    | none => exact likeCI_empty s hne hsafe
    | some m => exact likeCI_eq_subCI _ _ hsafe
  have h4 : likeCI s (coalesce r.email) =
      (match r.email with | some e => subCI s e | none => false) := by
    cases r.email with
    | none => exact likeCI_empty s hne hsafe
    | some e => exact likeCI_eq_subCI _ _ hsafe
  have h5 : likeCS s (coalesce r.phone) =
      (match r.phone with | some ph => jsIncludes ph s | none => false) := by
    cases r.phone with
    | none => exact likeCS_empty s hne hsafe
    | some ph => exact likeCS_eq_includes _ _ hsafe
  rw [h1, h2, h3, h4, h5]
  cases subCI s r.first_name <;>
    cases (match r.middle_name with | some m => subCI s m | none => false) <;>
    cases subCI s r.last_name <;> simp

/-- C7 (witness): `smith` matches John Smith (by last name) and a patient
with email `asmith@example.com`, and does not match Mary Jones. -/
theorem C7_search_iff_substring_witness :
    searchWhere "smith" baseRow = specSearchHit "smith" baseRow ∧
    specSearchHit "smith" baseRow = true ∧
    searchWhere "smith" c7EmailRow = specSearchHit "smith" c7EmailRow ∧
    specSearchHit "smith" c7EmailRow = true ∧
    searchWhere "smith" c7Row = specSearchHit "smith" c7Row ∧
    specSearchHit "smith" c7Row = false :=
  ⟨C7_search_iff_substring "smith" baseRow (by decide) (by decide), by decide,
   C7_search_iff_substring "smith" c7EmailRow (by decide) (by decide),
   by decide,
   C7_search_iff_substring "smith" c7Row (by decide) (by decide), by decide⟩

/-- C8 (counterexample).  The API schema accepts a body whose ZIP code
`ABCDE` does not match `NNNNN`/`NNNNN-NNNN` (the schema only checks
non-empty and at most 20 characters); the `NNNNN` format lives only in the
client-side `validateAddress` helper, which does reject it. -/
theorem C8_zip_format_not_enforced :
    PatientFormDataSchema.check c8BadZipBody = true ∧
    validatePatientForm c8BadZipBody =
      .ok { c8BadZipBody with
        address := { c8BadZipBody.address with country := some "USA" } } ∧
    zipFormat c8BadZipBody.address.zipCode = false ∧
    validateAddress.isValid "1 Main St" "Springfield" "IL" "ABCDE" "USA" =
      false := by decide

/-- C8 (amended).  A body is accepted by the API's create/update validation
iff it satisfies the stated field rules with the ZIP rule weakened to
"non-empty, at most 20 characters"; every body violating a rule is rejected
with a ValidationError (HTTP 400); the `NNNNN`/`NNNNN-NNNN` ZIP format is
enforced only by the client-side `validateAddress` helper. -/
theorem C8_schema_field_rules :
    ∀ (b : PatientFormBody) (street city state zip country : String),
    (PatientFormDataSchema.check b = true ↔ C8rules b) ∧
    (PatientFormDataSchema.check b = false →
      validatePatientForm b = .error .validation ∧
      SvcErr.validation.statusCode = 400) ∧
    (validateAddress.isValid street city state zip country = true →
      zipFormat zip = true) := by
  intro b street city state zip country
  refine ⟨schema_check_iff_rules b, ?_, ?_⟩
  · intro h
    refine ⟨?_, rfl⟩
    unfold validatePatientForm
    rw [if_neg]
    simp [h]
  · intro h
    unfold validateAddress.isValid at h
    simp only [Bool.and_eq_true, and_assoc] at h
    exact h.2.2.2.2.1

/-- C8 (witness): a body with an empty first name is rejected with a
ValidationError mapped to HTTP 400. -/
theorem C8_schema_field_rules_witness :
    validatePatientForm c8BadNameBody = .error .validation ∧
    SvcErr.validation.statusCode = 400 :=
  (C8_schema_field_rules c8BadNameBody "" "" "" "" "").2.1 (by decide)

/-- C9.  In the query-builder implementation the ORDER BY fragment always
comes from the fixed eight-element allow-list, but the standalone listing
handler concatenates the raw user-supplied `sortDirection` into the SQL
text: for every direction string the generated clause embeds it verbatim,
so for the failing input `asc; DROP TABLE patients; --` the SQL text is not
drawn from any fixed set — the claim that *every* implementation only uses
allow-listed identifiers is false. -/
theorem C9_route_orderby_interpolates_user_direction :
    (∀ f d, getOrderByClause f d ∈ orderByAllowList) ∧
    (∀ d, d.toList <:+: (routeOrderBy "name" d).toList) ∧
    routeOrderBy "name" "asc; DROP TABLE patients; --" =
      "ORDER BY last_name asc; DROP TABLE patients; --, first_name asc; DROP TABLE patients; --" ∧
    orderByAllowList.contains
      (routeOrderBy "name" "asc; DROP TABLE patients; --") = false := by
  refine ⟨?_, ?_, by decide, by decide⟩
  · intro f d
    unfold getOrderByClause
    split_ifs <;> by_cases hd : lowStr d = "asc" <;> simp [hd, orderByAllowList]
  · intro d
    show d.toList <:+:
      ("ORDER BY " ++ ("last_name " ++ d ++ ", first_name " ++ d)).toList
    refine ⟨"ORDER BY last_name ".toList, (", first_name " ++ d).toList, ?_⟩
    have hsplit : ("ORDER BY last_name " : String).toList =
        ("ORDER BY " : String).toList ++ ("last_name " : String).toList := by
      decide
    simp only [strToList_append, hsplit, List.append_assoc]

/-- C10.  For an existing patient, an update whose payload contains no
recognised field returns the stored patient unchanged, leaves the store
untouched (in particular `updated_at` is not refreshed), executes no UPDATE
statement and creates zero audit entries. -/
theorem C10_noop_update_executes_nothing :
    ∀ (db : Db) (id : String) (p : PatientRow) (d : PatientPatch)
    (now : String),
    lookupPatient db.patients id = some p → updateCols d = [] →
    PatientService.updatePatient db id d now = (.ok p, db, []) := by
  intro db id p d now hp hcols
  have hch : computeChanges d p = [] := computeChanges_nil d p hcols
  unfold PatientService.updatePatient
  rw [hp]
  unfold PatientRepository.update
  rw [if_pos hcols, hp]
  simp [hch]

/-- C10 (witness): the empty payload on a one-patient store. -/
theorem C10_noop_update_executes_nothing_witness :
    PatientService.updatePatient { patients := [baseRow], audits := [] } "p1"
        {} "2024-07-07T00:00:00.000Z" =
      (.ok baseRow, { patients := [baseRow], audits := [] }, []) :=
  C10_noop_update_executes_nothing { patients := [baseRow], audits := [] }
    "p1" baseRow {} "2024-07-07T00:00:00.000Z" (by decide) (by decide)

end PatientApp
